import Mathlib

/-!
Verification development for the SaltyBytes recipe-generation backend.

The definitions below are a shallow embedding of the Go sources:
  - tag normalization and tag association
    (service layer, function cleanHashtag and AssociateTagsWithRecipe),
  - the OpenAI generation client with its retry loop
    (internal/openai/openai.go, handleAPIError, CreateRecipeChatCompletion,
    CreateImage),
  - the asynchronous generation orchestrator
    (service layer, FinishGenerateRecipeWithChat) together with the draft
    store it drives.

Go machine details are modelled as follows: Go strings are Lean String
values (byte-level operations in the source only ever act on single-byte
ASCII characters such as a space and a hash sign); nil-able Go slices and
pointers are Option values, with none standing for nil; Go error values
are Except or Option payloads carrying the exact message strings the
source builds.
-/

namespace SaltyBytes

/-- The ASCII case mapping applied by strings.ToLower of the Go standard
library: an ASCII uppercase letter (code 65 to 90) is shifted by 32 to its
lowercase form, every other character is returned unchanged.  The Go
function also folds non-ASCII letters; every string the repository
normalizes is ASCII, and no character folds to an ASCII uppercase letter,
so the restriction is faithful for the properties proved here. -/
def goToLowerChar (c : Char) : Char :=
  if 65 ≤ c.toNat ∧ c.toNat ≤ 90 then Char.ofNat (c.toNat + 32) else c

/-- The predicate strings.ReplaceAll(s, " ", "") keeps: the character is
not a space. -/
def notSpace (c : Char) : Bool :=
  c ≠ ' '

/-- The Go standard library strings.TrimPrefix(s, "#"): when s starts
with the one-byte prefix "#" return s without its first character,
otherwise return s unchanged. -/
def goTrimHashChars (l : List Char) : List Char :=
  if l.head? = some '#' then l.tail else l

/-- Embedding of cleanHashtag from the service layer (src/unnamed/part_003,
lines 347 to 359, identical copy in src/internal/service/recipe.go):
lowercase the string, remove every space character, then trim a single
leading hash sign if present. -/
def cleanHashtag (hashtag : String) : String :=
  -- hashtag = strings.ToLower(hashtag)
  let hashtag := String.mk (hashtag.data.map goToLowerChar)
  -- hashtag = strings.ReplaceAll(hashtag, " ", "")
  let hashtag := String.mk (hashtag.data.filter notSpace)
  -- hashtag = strings.TrimPrefix(hashtag, "#")
  let hashtag := String.mk (goTrimHashChars hashtag.data)
  hashtag

/-- Modelled from the spec: the first normalization step, lowercasing. -/
def specLowercase (s : String) : String :=
  String.mk (s.data.map goToLowerChar)

/-- Modelled from the spec: the second normalization step, stripping
every space. -/
def specStripSpaces (s : String) : String :=
  String.mk (s.data.filter notSpace)

/-- Modelled from the spec: the third normalization step, stripping one
leading hash sign when present. -/
def specStripLeadingHash (s : String) : String :=
  match s.data with
  | '#' :: rest => String.mk rest
  | _ => s

/-- Modelled from the spec: normalize = lowercase, then strip internal
spaces, then strip the leading hash sign. -/
def specNormalizeTag (s : String) : String :=
  specStripLeadingHash (specStripSpaces (specLowercase s))

theorem char_shift_toNat (n : Nat) (h1 : 65 ≤ n) (h2 : n ≤ 90) :
    (Char.ofNat (n + 32)).toNat = n + 32 := by
  have hv : (n + 32).isValidChar := by
    left
    omega
  simp [Char.ofNat, hv, Char.ofNatAux, Char.toNat, UInt32.toNat, UInt32.ofNatCore]

theorem goToLowerChar_not_upper (c : Char) :
    ¬(65 ≤ (goToLowerChar c).toNat ∧ (goToLowerChar c).toNat ≤ 90) := by
  unfold goToLowerChar
  split
  · rename_i h
    rw [char_shift_toNat c.toNat h.1 h.2]
    omega
  · rename_i h
    exact h

theorem goTrimHashChars_eq_match (l : List Char) :
    goTrimHashChars l = match l with
      | '#' :: rest => rest
      | l => l := by
  unfold goTrimHashChars
  cases l with
  | nil => rfl
  | cons a t =>
    by_cases ha : a = '#'
    · subst ha
      simp
    · rw [if_neg]
      · split
        · rename_i heq
          cases heq
          exact absurd rfl ha
        · rfl
      · simp [ha]

theorem cleanHashtag_data (s : String) :
    (cleanHashtag s).data =
      goTrimHashChars ((s.data.map goToLowerChar).filter notSpace) := by
  rfl

theorem specStripLeadingHash_mk (l : List Char) :
    specStripLeadingHash (String.mk l) = String.mk (goTrimHashChars l) := by
  unfold specStripLeadingHash
  rw [goTrimHashChars_eq_match]
  cases l with
  | nil => rfl
  | cons a t =>
    by_cases ha : a = '#'
    · subst ha
      rfl
    · split
      · rename_i heq
        injection heq with h1 h2
        exact absurd h1 ha
      · rfl

theorem mem_goTrimHashChars {c : Char} {l : List Char}
    (h : c ∈ goTrimHashChars l) : c ∈ l := by
  unfold goTrimHashChars at h
  split at h
  · cases l with
    | nil => exact h
    | cons a t => exact List.mem_cons_of_mem a h
  · exact h

/-- C5: tag normalization lowercases the input, removes every space
character, and strips a leading hash sign; the three sample inputs all
normalize to the identical stored string. -/
theorem claim_C5 :
    (∀ s : String, cleanHashtag s = specNormalizeTag s) ∧
    cleanHashtag (r"#Spicy Chicken") = (r"spicychicken") ∧
    cleanHashtag (r"spicy chicken") = (r"spicychicken") ∧
    cleanHashtag (r"  SPICY   CHICKEN") = (r"spicychicken") := by
  refine ⟨?_, by decide, by decide, by decide⟩
  intro s
  show String.mk (goTrimHashChars ((s.data.map goToLowerChar).filter notSpace)) = _
  unfold specNormalizeTag specLowercase specStripSpaces
  rw [specStripLeadingHash_mk]

theorem claim_C5_witness :
    cleanHashtag (r"#Tag One") = specNormalizeTag (r"#Tag One") :=
  claim_C5.1 (r"#Tag One")

/-- C10: for every input the normalized output has no space and no ASCII
uppercase letter, at most one leading hash sign is removed (an input whose
lowered, space-free form starts with two hash signs keeps one), and
normalization is not idempotent on such inputs. -/
theorem claim_C10 :
    (∀ s : String, ' ' ∉ (cleanHashtag s).data) ∧
    (∀ s : String, ∀ c ∈ (cleanHashtag s).data,
      ¬(65 ≤ c.toNat ∧ c.toNat ≤ 90)) ∧
    (∀ s : String, ∀ t : List Char,
      (s.data.map goToLowerChar).filter notSpace = '#' :: '#' :: t →
      (cleanHashtag s).data = '#' :: t) ∧
    cleanHashtag (cleanHashtag (r"##Tag")) ≠ cleanHashtag (r"##Tag") := by
  refine ⟨?_, ?_, ?_, by decide⟩
  · intro s hm
    rw [cleanHashtag_data] at hm
    have hm2 := mem_goTrimHashChars hm
    have hf := (List.mem_filter.mp hm2).2
    simp [notSpace] at hf
  · intro s c hm
    rw [cleanHashtag_data] at hm
    have hm2 := mem_goTrimHashChars hm
    have hmap := (List.mem_filter.mp hm2).1
    rcases List.mem_map.mp hmap with ⟨a, _, ha⟩
    rw [← ha]
    exact goToLowerChar_not_upper a
  · intro s t hl
    rw [cleanHashtag_data, hl]
    rfl

theorem claim_C10_witness :
    (' ' ∉ (cleanHashtag (r"##Spicy Chicken")).data) ∧
    (cleanHashtag (r"##Spicy Chicken")).data = '#' :: (r"spicychicken").data := by
  constructor
  · exact claim_C10.1 (r"##Spicy Chicken")
  · exact claim_C10.2.2.1 (r"##Spicy Chicken") (r"spicychicken").data (by decide)

/-!
Generation Client (src/internal/openai/openai.go).

The provider calls are modelled as a function from the attempt index to
either an error or a response; the real client performs the same request
on every attempt, so the index only names which response the provider
gives to the i-th attempt.  Wall-clock sleeping is recorded as the list
of slept durations in seconds.
-/

/-- A Go error value as seen by handleAPIError: status is some code when
errors.As recognizes an openai.APIError with that HTTPStatusCode, and
none for any other error; msg is what the percent-v format verb renders
for the error. -/
structure GoAPIError where
  status : Option Nat
  msg : String
deriving DecidableEq

/-- The error values built inside internal/openai/openai.go, one
constructor per construction site; message gives the exact Go string. -/
inductive ClientErr where
  | authNoRetry
  | rateLimitRetry
  | serverRetry
  | unhandled (cause : String)
  | exhaustedChat (cause : String)
  | exhaustedImage (cause : String)
  | emptyMessage
  | emptyImage
  | unmarshalFailed (cause : String)
  | base64Failed (cause : String)
deriving DecidableEq

/-- The message string of each error value, exactly as the Go source
builds it with errors.New or fmt.Errorf. -/
def ClientErr.message : ClientErr → String
  | .authNoRetry => r"invalid auth or key. Do not retry"
  | .rateLimitRetry => r"rate limiting or engine overload. Will retry"
  | .serverRetry => r"openAI server error. Will retry"
  | .unhandled cause => (r"unhandled error: ") ++ cause
  | .exhaustedChat cause =>
      (r"exhausted maximum retries. Exiting. ChatCompletion error: ") ++ cause
  | .exhaustedImage cause =>
      (r"exhausted maximum retries. Exiting. CreateImage error: ") ++ cause
  | .emptyMessage => r"OpenAI API returned an empty message"
  | .emptyImage => r"OpenAI API returned an empty image"
  | .unmarshalFailed cause => (r"failed to unmarshal recipe: ") ++ cause
  | .base64Failed cause => (r"Base64 decode error: ") ++ cause

/-- Embedding of handleAPIError (openai.go lines 20 to 35): maps a
provider error to (shouldRetry, waitTime in seconds, err).  A 401 aborts
with the auth error, 429 and 500 retry after 2 seconds, anything else,
including a non-APIError value, aborts with the unhandled error wrapping
the cause. -/
def handleAPIError (respErr : GoAPIError) : Bool × Nat × ClientErr :=
  match respErr.status with
  | some 401 => (false, 0, .authNoRetry)
  | some 429 => (true, 2, .rateLimitRetry)
  | some 500 => (true, 2, .serverRetry)
  | some _ => (false, 0, .unhandled respErr.msg)
  | none => (false, 0, .unhandled respErr.msg)

/-- Outcome of the shared retry for-loop of CreateRecipeChatCompletion
and CreateImage, recording how many attempts were made and which waits
were slept.  success is the break on a nil error (and also the
degenerate fall-through of a zero-iteration loop, where Go would keep
the zero-valued response with a nil error); noRetry is the early return
with the error from handleAPIError; exhausted is falling out of the loop
with the last attempt's error still non-nil. -/
inductive RetryOutcome (α : Type) where
  | success (resp : α) (attempts : Nat) (waits : List Nat)
  | noRetry (e : ClientErr) (attempts : Nat) (waits : List Nat)
  | exhausted (last : GoAPIError) (attempts : Nat) (waits : List Nat)

/-- Number of provider calls the loop made. -/
def RetryOutcome.attempts : RetryOutcome α → Nat
  | .success _ n _ => n
  | .noRetry _ n _ => n
  | .exhausted _ n _ => n

/-- Embedding of the for-loop shared by CreateRecipeChatCompletion
(openai.go lines 121 to 146) and CreateImage (lines 173 to 195): i is the
loop counter, fuel is maxRetries minus i, last the error of the previous
iteration, waits the accumulated sleeps. -/
def retryLoop (call : Nat → Except GoAPIError α) (zero : α) :
    Nat → Nat → Option GoAPIError → List Nat → RetryOutcome α
  | i, 0, last, waits =>
    match last with
    | some e => .exhausted e i waits
    | none => .success zero i waits
  | i, fuel + 1, _, waits =>
    match call i with
    | .ok r => .success r (i + 1) waits
    | .error e =>
      let d := handleAPIError e
      if d.1 then retryLoop call zero (i + 1) fuel (some e) (waits ++ [d.2.1])
      else .noRetry d.2.2 (i + 1) waits

/-- Result of one logical client call: the value or error, the number of
provider attempts made, and the list of slept backoff durations. -/
structure ClientResult (α : Type) where
  result : Except ClientErr α
  attempts : Nat
  waits : List Nat

/-- The only field of a chat choice the source reads:
Choices[i].Message.FunctionCall.Arguments. -/
structure ChatChoice where
  arguments : String
deriving DecidableEq

/-- The chat completion response as read by the source. -/
structure ChatCompletionResponse where
  choices : List ChatChoice
deriving DecidableEq

/-- The zero value a Go openai.ChatCompletionResponse variable holds
before any successful call: an empty choice list. -/
def zeroChatResponse : ChatCompletionResponse := ⟨[]⟩

/-- Embedding of CreateRecipeChatCompletion (openai.go lines 43 to 165).
The fixed request payload (messages, schema, function definition) does
not influence the control flow and is omitted; decode stands for
json.Unmarshal of the arguments string into models.FullRecipe, with the
decoded type left as a parameter since the models package only matters
here through decodability. -/
def CreateRecipeChatCompletion (decode : String → Except String α)
    (call : Nat → Except GoAPIError ChatCompletionResponse) : ClientResult α :=
  match retryLoop call zeroChatResponse 0 5 none [] with
  | .noRetry e n w => ⟨.error e, n, w⟩
  | .exhausted last n w => ⟨.error (.exhaustedChat last.msg), n, w⟩
  | .success resp n w =>
    match resp.choices with
    | [] => ⟨.error .emptyMessage, n, w⟩
    | c :: _ =>
      if c.arguments = "" then ⟨.error .emptyMessage, n, w⟩
      else
        match decode c.arguments with
        | .error m => ⟨.error (.unmarshalFailed m), n, w⟩
        | .ok v => ⟨.ok v, n, w⟩

/-- The only field of an image data item the source reads: B64JSON. -/
structure ImageDataItem where
  b64JSON : String
deriving DecidableEq

/-- The image response as read by the source. -/
structure ImageResponse where
  data : List ImageDataItem
deriving DecidableEq

/-- The zero value of openai.ImageResponse: an empty data list. -/
def zeroImageResponse : ImageResponse := ⟨[]⟩

/-- Embedding of CreateImage (openai.go lines 168 to 211); b64decode
stands for base64.StdEncoding.DecodeString, returning the decoded bytes
as natural numbers below 256. -/
def CreateImage (b64decode : String → Except String (List Nat))
    (call : Nat → Except GoAPIError ImageResponse) : ClientResult (List Nat) :=
  match retryLoop call zeroImageResponse 0 5 none [] with
  | .noRetry e n w => ⟨.error e, n, w⟩
  | .exhausted last n w => ⟨.error (.exhaustedImage last.msg), n, w⟩
  | .success resp n w =>
    match resp.data with
    | [] => ⟨.error .emptyImage, n, w⟩
    | d :: _ =>
      if d.b64JSON = "" then ⟨.error .emptyImage, n, w⟩
      else
        match b64decode d.b64JSON with
        | .error m => ⟨.error (.base64Failed m), n, w⟩
        | .ok bytes => ⟨.ok bytes, n, w⟩

theorem retryLoop_attempts_le (call : Nat → Except GoAPIError α) (zero : α) :
    ∀ (fuel i : Nat) (last : Option GoAPIError) (waits : List Nat),
      (retryLoop call zero i fuel last waits).attempts ≤ i + fuel := by
  intro fuel
  induction fuel with
  | zero =>
    intro i last waits
    cases last with
    | none => simp [retryLoop, RetryOutcome.attempts]
    | some e => simp [retryLoop, RetryOutcome.attempts]
  | succ n ih =>
    intro i last waits
    rw [retryLoop]
    cases hc : call i with
    | ok r =>
      simp [RetryOutcome.attempts]
    | error e =>
      simp only []
      by_cases hd : (handleAPIError e).1
      · rw [if_pos hd]
        have := ih (i + 1) (some e) (waits ++ [(handleAPIError e).2.1])
        omega
      · rw [if_neg hd]
        simp [RetryOutcome.attempts]

theorem handleAPIError_unrecognized (st : Option Nat) (m : String)
    (h1 : st ≠ some 401) (h2 : st ≠ some 429) (h3 : st ≠ some 500) :
    handleAPIError ⟨st, m⟩ = (false, 0, .unhandled m) := by
  unfold handleAPIError
  cases st with
  | none => rfl
  | some n =>
    simp only []
    split
    · rename_i heq
      exact absurd heq h1
    · rename_i heq
      exact absurd heq h2
    · rename_i heq
      exact absurd heq h3
    · rfl
    · rfl

/-- C3: the client makes at most 5 attempts; a 429 or 500 response is
retried after a 2-second wait; a 401 fails after exactly 1 attempt with
the auth error; an unrecognized error fails after exactly 1 attempt
surfacing the cause; 4 transient errors followed by a success make
exactly 5 attempts and return the success result. -/
theorem claim_C3 :
    (∀ (α : Type) (decode : String → Except String α)
       (call : Nat → Except GoAPIError ChatCompletionResponse),
      (CreateRecipeChatCompletion decode call).attempts ≤ 5) ∧
    (∀ e : GoAPIError, e.status = some 429 ∨ e.status = some 500 →
      (handleAPIError e).1 = true ∧ (handleAPIError e).2.1 = 2) ∧
    (∀ (α : Type) (decode : String → Except String α)
       (call : Nat → Except GoAPIError ChatCompletionResponse) (m : String),
      call 0 = .error ⟨some 401, m⟩ →
      CreateRecipeChatCompletion decode call = ⟨.error .authNoRetry, 1, []⟩) ∧
    (∀ (α : Type) (decode : String → Except String α)
       (call : Nat → Except GoAPIError ChatCompletionResponse)
       (st : Option Nat) (m : String),
      st ≠ some 401 → st ≠ some 429 → st ≠ some 500 →
      call 0 = .error ⟨st, m⟩ →
      CreateRecipeChatCompletion decode call = ⟨.error (.unhandled m), 1, []⟩) ∧
    (∀ (α : Type) (decode : String → Except String α)
       (call : Nat → Except GoAPIError ChatCompletionResponse)
       (e : GoAPIError) (args : String) (v : α),
      e.status = some 429 ∨ e.status = some 500 →
      (∀ i, i < 4 → call i = .error e) →
      call 4 = .ok ⟨[⟨args⟩]⟩ →
      args ≠ "" →
      decode args = .ok v →
      CreateRecipeChatCompletion decode call = ⟨.ok v, 5, [2, 2, 2, 2]⟩) := by
  refine ⟨?_, ?_, ?_, ?_, ?_⟩
  · intro α decode call
    have h := retryLoop_attempts_le call zeroChatResponse 5 0 none []
    have he : (CreateRecipeChatCompletion decode call).attempts =
        (retryLoop call zeroChatResponse 0 5 none []).attempts := by
      unfold CreateRecipeChatCompletion
      cases hr : retryLoop call zeroChatResponse 0 5 none [] with
      | success resp n w =>
        obtain ⟨cs⟩ := resp
        cases cs with
        | nil => rfl
        | cons c rest =>
          obtain ⟨argstr⟩ := c
          by_cases ha : argstr = ""
          · simp [ha, RetryOutcome.attempts]
          · cases hd : decode argstr with
            | error m => simp [ha, hd, RetryOutcome.attempts]
            | ok v => simp [ha, hd, RetryOutcome.attempts]
      | noRetry e n w => rfl
      | exhausted e n w => rfl
    rw [he]
    simpa using h
  · intro e he
    obtain ⟨st, m⟩ := e
    rcases he with h | h
    · cases h
      exact ⟨rfl, rfl⟩
    · cases h
      exact ⟨rfl, rfl⟩
  · intro α decode call m h0
    simp [CreateRecipeChatCompletion, retryLoop, h0, handleAPIError]
  · intro α decode call st m h1 h2 h3 h0
    simp [CreateRecipeChatCompletion, retryLoop, h0,
      handleAPIError_unrecognized st m h1 h2 h3]
  · intro α decode call e args v hst hlt h4 hargs hdec
    have h0 := hlt 0 (by omega)
    have h1 := hlt 1 (by omega)
    have h2 := hlt 2 (by omega)
    have h3 := hlt 3 (by omega)
    obtain ⟨st, m⟩ := e
    rcases hst with h | h
    · cases h
      simp [CreateRecipeChatCompletion, retryLoop, h0, h1, h2, h3, h4,
        handleAPIError, hargs, hdec]
    · cases h
      simp [CreateRecipeChatCompletion, retryLoop, h0, h1, h2, h3, h4,
        handleAPIError, hargs, hdec]

/-- The provider behavior of the C3 witness scenario: four rate-limit
errors followed by a well-formed success. -/
def c3WitnessCall : Nat → Except GoAPIError ChatCompletionResponse :=
  fun i =>
    if i < 4 then .error ⟨some 429, r"rate limited"⟩
    else .ok ⟨[⟨r"payload"⟩]⟩

/-- The decode used by the C3 witness: returns the raw arguments. -/
def c3WitnessDecode : String → Except String String :=
  fun s => .ok s

theorem claim_C3_witness :
    CreateRecipeChatCompletion c3WitnessDecode c3WitnessCall =
      ⟨.ok (r"payload"), 5, [2, 2, 2, 2]⟩ := by
  apply claim_C3.2.2.2.2 String c3WitnessDecode c3WitnessCall
    ⟨some 429, r"rate limited"⟩ (r"payload") (r"payload")
  · left
    rfl
  · intro i hi
    interval_cases i <;> rfl
  · rfl
  · decide
  · rfl

/-- C8: the three failure outcomes are pairwise distinguishable, for the
text call and for the image call: exhausting the cap yields the
exhausted-retries error, a 401 the authorization error, a success
carrying no choices or an empty payload (no image data or empty base64)
the empty-response error, and the messages of these errors are pairwise
distinct. -/
theorem claim_C8 :
    (∀ (α : Type) (decode : String → Except String α)
       (call : Nat → Except GoAPIError ChatCompletionResponse)
       (e : GoAPIError),
      e.status = some 429 ∨ e.status = some 500 →
      (∀ i, i < 5 → call i = .error e) →
      CreateRecipeChatCompletion decode call =
        ⟨.error (.exhaustedChat e.msg), 5, [2, 2, 2, 2, 2]⟩) ∧
    (∀ (α : Type) (decode : String → Except String α)
       (call : Nat → Except GoAPIError ChatCompletionResponse),
      call 0 = .ok ⟨[]⟩ →
      (CreateRecipeChatCompletion decode call).result = .error .emptyMessage) ∧
    (∀ (b64decode : String → Except String (List Nat))
       (call : Nat → Except GoAPIError ImageResponse) (e : GoAPIError),
      e.status = some 429 ∨ e.status = some 500 →
      (∀ i, i < 5 → call i = .error e) →
      CreateImage b64decode call =
        ⟨.error (.exhaustedImage e.msg), 5, [2, 2, 2, 2, 2]⟩) ∧
    (∀ (b64decode : String → Except String (List Nat))
       (call : Nat → Except GoAPIError ImageResponse),
      call 0 = .ok ⟨[]⟩ →
      (CreateImage b64decode call).result = .error .emptyImage) ∧
    (∀ cause : String,
      ClientErr.message (.exhaustedChat cause) ≠ ClientErr.message .authNoRetry ∧
      ClientErr.message (.exhaustedChat cause) ≠ ClientErr.message .emptyMessage ∧
      ClientErr.message (.exhaustedImage cause) ≠ ClientErr.message .authNoRetry ∧
      ClientErr.message (.exhaustedImage cause) ≠ ClientErr.message .emptyImage) ∧
    ClientErr.message .authNoRetry ≠ ClientErr.message .emptyMessage ∧
    ClientErr.message .authNoRetry ≠ ClientErr.message .emptyImage := by
  refine ⟨?_, ?_, ?_, ?_, ?_, by decide, by decide⟩
  · intro α decode call e hst hlt
    have h0 := hlt 0 (by omega)
    have h1 := hlt 1 (by omega)
    have h2 := hlt 2 (by omega)
    have h3 := hlt 3 (by omega)
    have h4 := hlt 4 (by omega)
    obtain ⟨st, m⟩ := e
    rcases hst with h | h
    · cases h
      simp [CreateRecipeChatCompletion, retryLoop, h0, h1, h2, h3, h4,
        handleAPIError]
    · cases h
      simp [CreateRecipeChatCompletion, retryLoop, h0, h1, h2, h3, h4,
        handleAPIError]
  · intro α decode call h0
    simp [CreateRecipeChatCompletion, retryLoop, h0, zeroChatResponse]
  · intro b64decode call e hst hlt
    have h0 := hlt 0 (by omega)
    have h1 := hlt 1 (by omega)
    have h2 := hlt 2 (by omega)
    have h3 := hlt 3 (by omega)
    have h4 := hlt 4 (by omega)
    obtain ⟨st, m⟩ := e
    rcases hst with h | h
    · cases h
      simp [CreateImage, retryLoop, h0, h1, h2, h3, h4, handleAPIError]
    · cases h
      simp [CreateImage, retryLoop, h0, h1, h2, h3, h4, handleAPIError]
  · intro b64decode call h0
    simp [CreateImage, retryLoop, h0, zeroImageResponse]
  · intro cause
    have hc : 40 ≤ (r"exhausted maximum retries. Exiting. ChatCompletion error: ").length := by
      decide
    have hi : 40 ≤ (r"exhausted maximum retries. Exiting. CreateImage error: ").length := by
      decide
    have ha : (r"invalid auth or key. Do not retry").length ≤ 36 := by decide
    have hm : (r"OpenAI API returned an empty message").length ≤ 36 := by decide
    have hg : (r"OpenAI API returned an empty image").length ≤ 36 := by decide
    refine ⟨?_, ?_, ?_, ?_⟩
    · intro heq
      have hlen := congrArg String.length heq
      simp only [ClientErr.message] at hlen
      rw [String.length_append] at hlen
      omega
    · intro heq
      have hlen := congrArg String.length heq
      simp only [ClientErr.message] at hlen
      rw [String.length_append] at hlen
      omega
    · intro heq
      have hlen := congrArg String.length heq
      simp only [ClientErr.message] at hlen
      rw [String.length_append] at hlen
      omega
    · intro heq
      have hlen := congrArg String.length heq
      simp only [ClientErr.message] at hlen
      rw [String.length_append] at hlen
      omega

/-- The provider behavior of the C8 witness scenario: a server error on
every attempt. -/
def c8WitnessCall : Nat → Except GoAPIError ChatCompletionResponse :=
  fun _ => .error ⟨some 500, r"server down"⟩

/-- The decode used by the C8 witness: returns the raw arguments. -/
def c8WitnessDecode : String → Except String String :=
  fun s => .ok s

theorem claim_C8_witness :
    CreateRecipeChatCompletion c8WitnessDecode c8WitnessCall =
      ⟨.error (.exhaustedChat (r"server down")), 5, [2, 2, 2, 2, 2]⟩ ∧
    ClientErr.message (.exhaustedChat (r"server down")) ≠
      ClientErr.message .authNoRetry := by
  constructor
  · exact claim_C8.1 String c8WitnessDecode c8WitnessCall
      ⟨some 500, r"server down"⟩ (Or.inr rfl) (fun i _ => rfl)
  · exact (claim_C8.2.2.2.2.1 (r"server down")).1

/-!
Data model.  The saltybytes-api models and repository packages are not
under src; their shapes are modelled from the spec (section 3, DATA
MODEL, and section 6, EXTERNAL INTERFACES) and from the field accesses
the service layer makes.
-/

/-- Modelled from the spec: one recorded prompt and response turn of a
recipe's generation history (the models package defining
models.RecipeHistoryEntry is not under src). -/
structure RecipeHistoryEntry where
  prompt : String
  response : String
deriving DecidableEq

/-- Modelled from the spec: the history attached one-to-one to a Recipe;
the entry slice is nil-able in Go. -/
structure RecipeHistory where
  entries : Option (List RecipeHistoryEntry)
deriving DecidableEq

/-- Modelled from the spec: one structured ingredient (name, unit,
amount); the amount value itself is never inspected by the orchestrator,
only the presence of the slice is. -/
structure Ingredient where
  name : String
  unit : String
  amount : Nat
deriving DecidableEq

/-- The Recipe record as the orchestrator uses it, modelled from the
spec and from the field accesses in src/unnamed/part_003 (the models
package is not under src): nil-able slices and pointers are Options, and
the image URL is a Go string whose zero value, the empty string, is the
null state. -/
structure Recipe where
  id : Nat
  title : String
  ingredients : Option (List Ingredient)
  instructions : Option (List String)
  cookTime : Nat
  linkSuggestions : List String
  imagePrompt : String
  imageURL : String
  history : Option RecipeHistory
deriving DecidableEq

/-- A tag row: a database-assigned primary key and the normalized
text. -/
structure Tag where
  id : Nat
  hashtag : String
deriving DecidableEq

/-- The generated recipe definition (recipeManager.RecipeDef), modelled
from the spec's structured output schema and from the reads in
populateRecipeCoreFields and FinishGenerateRecipeWithChat. -/
structure RecipeDef where
  title : String
  ingredients : Option (List Ingredient)
  instructions : Option (List String)
  cookTime : Nat
  linkedRecipeSuggestions : List String
  imagePrompt : String
  hashtags : List String
deriving DecidableEq

/-- Modelled from the spec: the fields of openai.RecipeManager that
FinishGenerateRecipeWithChat reads after a successful text generation
(the saltybytes-api openai package is not under src): the structured
recipe definition, the history entries accumulated by the generation,
and the single new history entry handed to the draft store. -/
structure RecipeManager where
  recipeDef : RecipeDef
  recipeHistoryEntries : List RecipeHistoryEntry
  nextRecipeHistoryEntry : RecipeHistoryEntry
deriving DecidableEq

/-- Go append on a nil-able slice: appending nothing to nil keeps nil,
appending something to nil allocates, appending to a non-nil slice keeps
it non-nil even when both are empty. -/
def goAppend (xs : Option (List α)) (ys : List α) : Option (List α) :=
  match xs, ys with
  | none, [] => none
  | none, ys => some ys
  | some xs, ys => some (xs ++ ys)

/-- The state of the persistence boundary one orchestration run drives:
the recipe row under the draft's identity, the global tag table together
with the next tag primary key, and the recipe's tag-association set. -/
structure DraftStore where
  recipe : Option Recipe
  tags : List Tag
  nextTagID : Nat
  recipeTags : List Tag
deriving DecidableEq

/-- Modelled from the spec: findTagByName of the repository looks a tag
row up by its normalized text; a none result is the gorm
record-not-found outcome the caller tests for. -/
def FindTagByName (store : DraftStore) (name : String) : Option Tag :=
  store.tags.find? (fun t => t.hashtag = name)

/-- Modelled from the spec: createTag inserts a new tag row, the
database assigning the next primary key. -/
def CreateTag (store : DraftStore) (hashtag : String) : DraftStore × Tag :=
  let t : Tag := ⟨store.nextTagID, hashtag⟩
  ({ store with tags := store.tags ++ [t], nextTagID := store.nextTagID + 1 }, t)

/-- Modelled from the spec: replaceRecipeTags overwrites the recipe's
association set with exactly the given set. -/
def UpdateRecipeTagsAssociation (store : DraftStore) (tags : List Tag) : DraftStore :=
  { store with recipeTags := tags }

/-- The for-loop of AssociateTagsWithRecipe (src/unnamed/part_003 lines
289 to 305): normalize each raw tag, reuse the row the lookup finds,
create a row when the lookup reports not-found, and accumulate the
resolved rows in order. -/
def associateLoop (store : DraftStore) : List String → DraftStore × List Tag
  | [] => (store, [])
  | hashtag :: rest =>
    let cleanedHashtag := cleanHashtag hashtag
    match FindTagByName store cleanedHashtag with
    | some existingTag =>
      let p := associateLoop store rest
      (p.1, existingTag :: p.2)
    | none =>
      let c := CreateTag store cleanedHashtag
      let p := associateLoop c.1 rest
      (p.1, c.2 :: p.2)

/-- Embedding of AssociateTagsWithRecipe (src/unnamed/part_003 lines 284
to 313): run the resolution loop, then overwrite the recipe's tag
associations with the resolved set.  The pure store models a database
whose lookups either hit or report not-found; the repository write
failure the orchestrator path distinguishes is injected at the final
association update through updateOk (a create failure or a non-not-found
lookup failure aborts the same way earlier and is not needed by any
claim). -/
def AssociateTagsWithRecipe (updateOk : Bool) (store : DraftStore)
    (tags : List String) : DraftStore × Except String Unit :=
  let p := associateLoop store tags
  if updateOk then (UpdateRecipeTagsAssociation p.1 p.2, .ok ())
  else (p.1, .error (r"failed to update recipe with tags"))

theorem associateLoop_tags_extends (l : List String) :
    ∀ store : DraftStore,
      ∃ extra, (associateLoop store l).1.tags = store.tags ++ extra := by
  induction l with
  | nil =>
    intro store
    exact ⟨[], by simp [associateLoop]⟩
  | cons t rest ih =>
    intro store
    cases hf : FindTagByName store (cleanHashtag t) with
    | some a =>
      obtain ⟨extra, he⟩ := ih store
      exact ⟨extra, by simp [associateLoop, hf, he]⟩
    | none =>
      obtain ⟨extra, he⟩ := ih (CreateTag store (cleanHashtag t)).1
      refine ⟨⟨store.nextTagID, cleanHashtag t⟩ :: extra, ?_⟩
      simp [CreateTag] at he
      simp [associateLoop, hf, CreateTag, he]

theorem associateLoop_resolved_hashtags (l : List String) :
    ∀ store : DraftStore,
      ((associateLoop store l).2).map (fun t => t.hashtag) = l.map cleanHashtag := by
  induction l with
  | nil =>
    intro store
    rfl
  | cons t rest ih =>
    intro store
    cases hf : FindTagByName store (cleanHashtag t) with
    | some a =>
      have ha : a.hashtag = cleanHashtag t := by
        rw [FindTagByName] at hf
        have := List.find?_some hf
        simpa using this
      simp [associateLoop, hf, ha, ih store]
    | none =>
      simp [associateLoop, hf, CreateTag, ih]

theorem associateLoop_untouched (l : List String) :
    ∀ store : DraftStore,
      (associateLoop store l).1.recipeTags = store.recipeTags ∧
      (associateLoop store l).1.recipe = store.recipe := by
  induction l with
  | nil =>
    intro store
    exact ⟨rfl, rfl⟩
  | cons t rest ih =>
    intro store
    cases hf : FindTagByName store (cleanHashtag t) with
    | some a =>
      simpa [associateLoop, hf] using ih store
    | none =>
      simpa [associateLoop, hf, CreateTag] using ih (CreateTag store (cleanHashtag t)).1

theorem associateLoop_tags_only (l : List String) :
    ∀ (s1 s2 : DraftStore), s1.tags = s2.tags → s1.nextTagID = s2.nextTagID →
      (associateLoop s1 l).2 = (associateLoop s2 l).2 := by
  induction l with
  | nil =>
    intro s1 s2 _ _
    rfl
  | cons t rest ih =>
    intro s1 s2 htags hid
    have hff : FindTagByName s1 (cleanHashtag t) = FindTagByName s2 (cleanHashtag t) := by
      rw [FindTagByName, FindTagByName, htags]
    cases hf : FindTagByName s2 (cleanHashtag t) with
    | some a =>
      rw [hf] at hff
      simp [associateLoop, hf, hff, ih s1 s2 htags hid]
    | none =>
      rw [hf] at hff
      have hrec := ih (CreateTag s1 (cleanHashtag t)).1 (CreateTag s2 (cleanHashtag t)).1
        (by simp [CreateTag, htags, hid]) (by simp [CreateTag, hid])
      have hhead : (CreateTag s1 (cleanHashtag t)).2 = (CreateTag s2 (cleanHashtag t)).2 := by
        simp [CreateTag, hid]
      simp only [associateLoop, hff, hf]
      rw [hhead, hrec]

theorem associateLoop_all_found (l : List String) :
    ∀ store : DraftStore,
      (∀ t ∈ l, ∃ a ∈ store.tags, a.hashtag = cleanHashtag t) →
      (associateLoop store l).1 = store := by
  induction l with
  | nil =>
    intro store _
    rfl
  | cons t rest ih =>
    intro store h
    obtain ⟨a, hmem, hh⟩ := h t (by simp)
    have hsome : (FindTagByName store (cleanHashtag t)).isSome := by
      rw [FindTagByName, List.find?_isSome]
      exact ⟨a, hmem, by simp [hh]⟩
    cases hf : FindTagByName store (cleanHashtag t) with
    | none =>
      rw [hf] at hsome
      simp at hsome
    | some b =>
      have := ih store (fun x hx => h x (by simp [hx]))
      simp [associateLoop, hf, this]

theorem associateLoop_nodup (l : List String) :
    ∀ store : DraftStore,
      (store.tags.map (fun t => t.hashtag)).Nodup →
      ((associateLoop store l).1.tags.map (fun t => t.hashtag)).Nodup := by
  induction l with
  | nil =>
    intro store h
    exact h
  | cons t rest ih =>
    intro store h
    cases hf : FindTagByName store (cleanHashtag t) with
    | some a =>
      have := ih store h
      simpa [associateLoop, hf] using this
    | none =>
      have hnotin : cleanHashtag t ∉ store.tags.map (fun x => x.hashtag) := by
        rw [FindTagByName] at hf
        have hall := List.find?_eq_none.mp hf
        intro hmem
        obtain ⟨x, hx, hxe⟩ := List.mem_map.mp hmem
        have := hall x hx
        simp [hxe] at this
      have hnd : ((CreateTag store (cleanHashtag t)).1.tags.map
          (fun x => x.hashtag)).Nodup := by
        simp only [CreateTag, List.map_append, List.map_cons, List.map_nil]
        refine ((List.perm_append_singleton _ _).nodup_iff).mpr ?_
        refine List.nodup_cons.mpr ⟨by simpa using hnotin, ?_⟩
        simpa using h
      have := ih (CreateTag store (cleanHashtag t)).1 hnd
      simpa [associateLoop, hf] using this

theorem associateLoop_presence (l : List String) :
    ∀ store : DraftStore, ∀ t ∈ l,
      ∃ a ∈ (associateLoop store l).1.tags, a.hashtag = cleanHashtag t := by
  induction l with
  | nil =>
    intro store t ht
    simp at ht
  | cons x rest ih =>
    intro store t ht
    cases hf : FindTagByName store (cleanHashtag x) with
    | some a =>
      rcases List.mem_cons.mp ht with h | h
      · subst h
        have hmem : a ∈ store.tags := by
          rw [FindTagByName] at hf
          exact List.mem_of_find?_eq_some hf
        have ha : a.hashtag = cleanHashtag t := by
          rw [FindTagByName] at hf
          have := List.find?_some hf
          simpa using this
        obtain ⟨extra, he⟩ := associateLoop_tags_extends rest store
        refine ⟨a, ?_, ha⟩
        simp [associateLoop, hf, he]
        exact Or.inl hmem
      · have := ih store t h
        simpa [associateLoop, hf] using this
    | none =>
      rcases List.mem_cons.mp ht with h | h
      · subst h
        obtain ⟨extra, he⟩ :=
          associateLoop_tags_extends rest (CreateTag store (cleanHashtag t)).1
        refine ⟨⟨store.nextTagID, cleanHashtag t⟩, ?_, rfl⟩
        have hgoal : (⟨store.nextTagID, cleanHashtag t⟩ : Tag) ∈
            (associateLoop (CreateTag store (cleanHashtag t)).1 rest).1.tags := by
          rw [he]
          simp [CreateTag]
        simpa [associateLoop, hf] using hgoal
      · have := ih (CreateTag store (cleanHashtag x)).1 t h
        simpa [associateLoop, hf] using this

theorem associateLoop_idem (l : List String) :
    ∀ (store s2 : DraftStore),
      s2.tags = (associateLoop store l).1.tags →
      (associateLoop s2 l).1 = s2 ∧
      (associateLoop s2 l).2 = (associateLoop store l).2 := by
  induction l with
  | nil =>
    intro store s2 _
    exact ⟨rfl, rfl⟩
  | cons t rest ih =>
    intro store s2 h
    cases hf : FindTagByName store (cleanHashtag t) with
    | some a =>
      have h2 : s2.tags = (associateLoop store rest).1.tags := by
        simpa [associateLoop, hf] using h
      have hf2 : FindTagByName s2 (cleanHashtag t) = some a := by
        obtain ⟨extra, he⟩ := associateLoop_tags_extends rest store
        rw [FindTagByName, h2, he, List.find?_append]
        rw [FindTagByName] at hf
        simp [hf]
      obtain ⟨ih1, ih2⟩ := ih store s2 h2
      exact ⟨by simp [associateLoop, hf2, ih1],
        by simp [associateLoop, hf, hf2, ih2]⟩
    | none =>
      have h2 : s2.tags = (associateLoop (CreateTag store (cleanHashtag t)).1 rest).1.tags := by
        simpa [associateLoop, hf] using h
      have hf2 : FindTagByName s2 (cleanHashtag t) =
          some ⟨store.nextTagID, cleanHashtag t⟩ := by
        obtain ⟨extra, he⟩ :=
          associateLoop_tags_extends rest (CreateTag store (cleanHashtag t)).1
        rw [FindTagByName, h2, he]
        simp only [CreateTag]
        rw [List.append_assoc, List.find?_append]
        rw [FindTagByName] at hf
        simp [hf]
      obtain ⟨ih1, ih2⟩ := ih (CreateTag store (cleanHashtag t)).1 s2 h2
      exact ⟨by simp [associateLoop, hf2, ih1],
        by simp [associateLoop, hf, hf2, ih2, CreateTag]⟩

/-- C6: the Tag Associator reuses the row a lookup finds and creates a
row only on not-found; it then overwrites the recipe's association set
with exactly the resolved set, one resolved row per raw tag in order,
independently of the previous association set; on a duplicate-free table
it keeps the table duplicate-free with every normalized tag present; and
associating the same set twice adds no row and reproduces the same
association set. -/
theorem claim_C6 :
    (∀ (store : DraftStore) (tags : List String),
      ((AssociateTagsWithRecipe true store tags).1.recipeTags).map (fun t => t.hashtag) =
        tags.map cleanHashtag) ∧
    (∀ (store : DraftStore) (prior : List Tag) (tags : List String),
      (AssociateTagsWithRecipe true { store with recipeTags := prior } tags).1.recipeTags =
        (AssociateTagsWithRecipe true store tags).1.recipeTags) ∧
    (∀ (store : DraftStore) (tags : List String),
      (∀ t ∈ tags, ∃ a ∈ store.tags, a.hashtag = cleanHashtag t) →
      (AssociateTagsWithRecipe true store tags).1.tags = store.tags) ∧
    (∀ (store : DraftStore) (tags : List String),
      (store.tags.map (fun t => t.hashtag)).Nodup →
      ((AssociateTagsWithRecipe true store tags).1.tags.map (fun t => t.hashtag)).Nodup) ∧
    (∀ (store : DraftStore) (tags : List String), ∀ t ∈ tags,
      ∃ a ∈ (AssociateTagsWithRecipe true store tags).1.tags,
        a.hashtag = cleanHashtag t) ∧
    (∀ (store : DraftStore) (tags : List String),
      (AssociateTagsWithRecipe true (AssociateTagsWithRecipe true store tags).1 tags).1.tags =
        (AssociateTagsWithRecipe true store tags).1.tags ∧
      (AssociateTagsWithRecipe true (AssociateTagsWithRecipe true store tags).1 tags).1.recipeTags =
        (AssociateTagsWithRecipe true store tags).1.recipeTags) := by
  refine ⟨?_, ?_, ?_, ?_, ?_, ?_⟩
  · intro store tags
    simpa [AssociateTagsWithRecipe, UpdateRecipeTagsAssociation] using
      associateLoop_resolved_hashtags tags store
  · intro store prior tags
    have := associateLoop_tags_only tags { store with recipeTags := prior } store rfl rfl
    simpa [AssociateTagsWithRecipe, UpdateRecipeTagsAssociation] using this
  · intro store tags h
    have := associateLoop_all_found tags store h
    simp [AssociateTagsWithRecipe, UpdateRecipeTagsAssociation, this]
  · intro store tags h
    have := associateLoop_nodup tags store h
    simpa [AssociateTagsWithRecipe, UpdateRecipeTagsAssociation] using this
  · intro store tags t ht
    have := associateLoop_presence tags store t ht
    simpa [AssociateTagsWithRecipe, UpdateRecipeTagsAssociation] using this
  · intro store tags
    have hidem := associateLoop_idem tags store
      { (associateLoop store tags).1 with recipeTags := (associateLoop store tags).2 }
      (by rfl)
    obtain ⟨i1, i2⟩ := hidem
    constructor
    · simp only [AssociateTagsWithRecipe, UpdateRecipeTagsAssociation, if_pos]
      rw [i1]
    · simp only [AssociateTagsWithRecipe, UpdateRecipeTagsAssociation, if_pos]
      rw [i2]

theorem claim_C6_witness :
    (AssociateTagsWithRecipe true ⟨none, [⟨1, r"spicychicken"⟩], 2, []⟩
        [r"#Spicy Chicken"]).1.tags = [⟨1, r"spicychicken"⟩] :=
  claim_C6.2.2.1 ⟨none, [⟨1, r"spicychicken"⟩], 2, []⟩ [r"#Spicy Chicken"]
    (by decide)

/-!
Generation Orchestrator (src/unnamed/part_003, FinishGenerateRecipeWithChat,
lines 115 to 219).

The run is a supervising function over a single shared 5-minute deadline:
a text goroutine generates the structured recipe, persists it and
associates tags, then signals on recipeErrChan; on generation success it
concurrently starts an image goroutine signalling on imageErrChan.  The
supervisor performs two sequential select waits.  The embedding makes the
scheduling explicit: each select is resolved by a Boolean saying which arm
fired, and the outcome of every collaborator call is an input.
-/

/-- Embedding of validateRecipeCoreFields (lines 260 to 271).  The Go
code reads recipe.History.Entries directly; every call site has already
checked History for nil (populateRecipeCoreFields errors first), and the
embedding reads the entries through the Option, reporting the
missing-field error in the otherwise-unreachable nil case. -/
def validateRecipeCoreFields (recipe : Recipe) : Except String Unit :=
  if recipe.title = "" ∨
      recipe.ingredients = none ∨
      recipe.instructions = none ∨
      recipe.imagePrompt = "" ∨
      recipe.history.bind (fun h => h.entries) = none then
    .error (r"missing required fields in Recipe")
  else
    .ok ()

/-- Embedding of populateRecipeCoreFields (lines 237 to 258): copy the
generated core fields onto the recipe, require a non-nil history, append
the manager's accumulated history entries, then validate.  The returned
recipe carries the mutations Go performs in place even when an error is
returned alongside. -/
def populateRecipeCoreFields (recipe : Recipe) (rm : RecipeManager) :
    Recipe × Except String Unit :=
  let r := { recipe with
    title := rm.recipeDef.title
    ingredients := rm.recipeDef.ingredients
    instructions := rm.recipeDef.instructions
    cookTime := rm.recipeDef.cookTime
    linkSuggestions := rm.recipeDef.linkedRecipeSuggestions
    imagePrompt := rm.recipeDef.imagePrompt }
  match r.history with
  | none => (r, .error (r"recipe history is nil"))
  | some h =>
    let r2 := { r with history := some ⟨goAppend h.entries rm.recipeHistoryEntries⟩ }
    (r2, validateRecipeCoreFields r2)

/-- Modelled from the spec: appending one entry to a history log. -/
def appendHistoryEntry : Option RecipeHistory → RecipeHistoryEntry → Option RecipeHistory
  | none, e => some ⟨some [e]⟩
  | some h, e =>
    match h.entries with
    | none => some ⟨some [e]⟩
    | some es => some ⟨some (es ++ [e])⟩

/-- Modelled from the spec: updateRecipeDef of the repository persists
the updated Recipe and appends the new history entry to its history log
(repository package not under src; spec sections 4.2 rule 3 and 6). -/
def UpdateRecipeDef (store : DraftStore) (recipe : Recipe)
    (entry : RecipeHistoryEntry) : DraftStore :=
  let stored := { recipe with history := appendHistoryEntry recipe.history entry }
  { store with recipe := some stored }

/-- Modelled from the spec: updateRecipeImageURL persists the image URL
onto the recipe row when that row is present. -/
def UpdateRecipeImageURL (store : DraftStore) (url : String) : DraftStore :=
  { store with recipe := store.recipe.map (fun r => { r with imageURL := url }) }

/-- Embedding of the service DeleteRecipe (lines 221 to 235): delete the
recipe row, then delete the stored image from S3; either failure is
wrapped and returned, and a repository delete failure leaves the row in
place.  The two collaborator outcomes are inputs. -/
def DeleteRecipe (repoResult s3Result : Except String Unit)
    (store : DraftStore) : DraftStore × Except String Unit :=
  match repoResult with
  | .error cause => (store, .error ((r"failed to delete recipe: ") ++ cause))
  | .ok _ =>
    let s := { store with recipe := none }
    match s3Result with
    | .error cause =>
        (s, .error ((r"failed to delete recipe image from S3: ") ++ cause))
    | .ok _ => (s, .ok ())

/-- The environment of one orchestration run: the outcome of every
collaborator call and the scheduling of the two select waits.  The two
deadline flags say which arm of each Go select fires (the stage's
completion channel, or ctx.Done of the one context created at entry);
textProgress says how many of the text goroutine's persistence steps had
completed when the deadline arm fired, the goroutine running concurrently
with the supervisor. -/
structure RunEnv where
  genTextResult : Except String Unit
  rm : RecipeManager
  updateDefResult : Except String Unit
  assocUpdateOk : Bool
  genImageResult : Except String Unit
  uploadResult : Except String String
  updateImageURLResult : Except String Unit
  deleteRepoResult : Except String Unit
  deleteS3Result : Except String Unit
  textDeadline : Bool
  textProgress : Nat
  imageDeadline : Bool

/-- The text-generation goroutine (lines 131 to 162): the value it sends
on recipeErrChan (none is the nil success send), the store as it stands
at the send (an unbuffered channel, so every store write of the goroutine
happens before the supervisor receives), and the log lines it wrote.  A
tag-association failure is logged and the goroutine still sends nil. -/
def textStage (env : RunEnv) (recipe : Recipe) (store : DraftStore) :
    Option String × DraftStore × List String :=
  match env.genTextResult with
  | .error e => (some e, store, [])
  | .ok _ =>
    let pr := populateRecipeCoreFields recipe env.rm
    match pr.2 with
    | .error e => (some e, store, [])
    | .ok _ =>
      match env.updateDefResult with
      | .error e => (some e, store, [])
      | .ok _ =>
        let s1 := UpdateRecipeDef store pr.1 env.rm.nextRecipeHistoryEntry
        let pa := AssociateTagsWithRecipe env.assocUpdateOk s1 env.rm.recipeDef.hashtags
        match pa.2 with
        | .error e => (none, pa.1, [e])
        | .ok _ => (none, pa.1, [])

/-- The successive store states at the text goroutine's persistence
points, used by the deadline path, where the supervisor acts without
having received the completion signal: before any write, after
UpdateRecipeDef, and after tag association.  The tag loop's own
intermediate states differ from its final state only in tag-table rows,
never in the recipe row, so they are represented by the final one. -/
def textStageStores (env : RunEnv) (recipe : Recipe) (store : DraftStore) :
    List DraftStore :=
  match env.genTextResult with
  | .error _ => [store]
  | .ok _ =>
    let pr := populateRecipeCoreFields recipe env.rm
    match pr.2 with
    | .error _ => [store]
    | .ok _ =>
      match env.updateDefResult with
      | .error _ => [store]
      | .ok _ =>
        let s1 := UpdateRecipeDef store pr.1 env.rm.nextRecipeHistoryEntry
        [store, s1,
          (AssociateTagsWithRecipe env.assocUpdateOk s1 env.rm.recipeDef.hashtags).1]

/-- The store the supervisor sees when the shared deadline fires during
the first wait, the goroutine having completed k persistence steps. -/
def storeAtProgress (env : RunEnv) (recipe : Recipe) (store : DraftStore)
    (k : Nat) : DraftStore :=
  let tr := textStageStores env recipe store
  tr.getD (min k (tr.length - 1)) store

/-- The timeout message logged at the first wait (line 183). -/
def msgTextTimeout : String :=
  r"incomplete recipe generation: timed out after 5 minutes"

/-- The timeout message logged at the second wait (line 215). -/
def msgImageTimeout : String :=
  r"incomplete recipe image generation: timed out after 5 minutes"

/-- The success log after rollback; Go logs it with the recipe id. -/
def msgRecipeDeleted : String :=
  r"recipe deleted"

/-- The prefix uploadRecipeImage (lines 273 to 282) wraps an S3 upload
failure with. -/
def msgUploadFailed (cause : String) : String :=
  (r"failed to upload image to S3: ") ++ cause

/-- The outcome of a run: the final store and the log lines in order. -/
structure RunOutcome where
  store : DraftStore
  logs : List String
deriving DecidableEq

/-- Embedding of FinishGenerateRecipeWithChat (lines 115 to 219).  First
wait (lines 164 to 192): on a received error or on deadline expiry the
draft is deleted, a deletion failure being logged without escalating; on
a received nil the second wait (lines 194 to 218) either logs the image
failure or timeout and stops, leaving the text-stage store untouched, or
uploads the image and persists its URL. -/
def FinishGenerateRecipeWithChat (env : RunEnv) (recipe : Recipe)
    (store : DraftStore) : RunOutcome :=
  if env.textDeadline then
    let s := storeAtProgress env recipe store env.textProgress
    let d := DeleteRecipe env.deleteRepoResult env.deleteS3Result s
    match d.2 with
    | .error de => ⟨d.1, [msgTextTimeout, de]⟩
    | .ok _ => ⟨d.1, [msgTextTimeout, msgRecipeDeleted]⟩
  else
    let t := textStage env recipe store
    match t.1 with
    | some e =>
      let d := DeleteRecipe env.deleteRepoResult env.deleteS3Result t.2.1
      match d.2 with
      | .error de => ⟨d.1, t.2.2 ++ [e, de]⟩
      | .ok _ => ⟨d.1, t.2.2 ++ [e, msgRecipeDeleted]⟩
    | none =>
      if env.imageDeadline then ⟨t.2.1, t.2.2 ++ [msgImageTimeout]⟩
      else
        match env.genImageResult with
        | .error e => ⟨t.2.1, t.2.2 ++ [e]⟩
        | .ok _ =>
          match env.uploadResult with
          | .error cause => ⟨t.2.1, t.2.2 ++ [msgUploadFailed cause]⟩
          | .ok url =>
            match env.updateImageURLResult with
            | .error e => ⟨t.2.1, t.2.2 ++ [e]⟩
            | .ok _ => ⟨UpdateRecipeImageURL t.2.1 url, t.2.2⟩

/-- The single wall-clock budget, in seconds, of the one
context.WithTimeout created at entry (line 117). -/
def generationTimeout : Nat := 300

/-- The run driven by a clock: textTime and imageTime are the absolute
times, in seconds from entry, at which the two completion signals become
ready.  Both selects race their signal against ctx.Done of the same
context, so each deadline arm fires exactly when its signal is ready only
after the one shared absolute deadline (at a dead tie Go chooses an arm
nondeterministically; the model lets the signal win). -/
def FinishWithClock (env : RunEnv) (textTime imageTime : Nat)
    (recipe : Recipe) (store : DraftStore) : RunOutcome :=
  FinishGenerateRecipeWithChat
    { env with
        textDeadline := decide (generationTimeout < textTime)
        imageDeadline := decide (generationTimeout < imageTime) }
    recipe store

theorem AssociateTags_recipe (b : Bool) (store : DraftStore) (tags : List String) :
    (AssociateTagsWithRecipe b store tags).1.recipe = store.recipe := by
  have h := (associateLoop_untouched tags store).2
  cases b with
  | true => simpa [AssociateTagsWithRecipe, UpdateRecipeTagsAssociation] using h
  | false => simpa [AssociateTagsWithRecipe] using h

theorem populate_fields (recipe : Recipe) (rm : RecipeManager) :
    (populateRecipeCoreFields recipe rm).1.title = rm.recipeDef.title ∧
    (populateRecipeCoreFields recipe rm).1.ingredients = rm.recipeDef.ingredients ∧
    (populateRecipeCoreFields recipe rm).1.instructions = rm.recipeDef.instructions ∧
    (populateRecipeCoreFields recipe rm).1.imagePrompt = rm.recipeDef.imagePrompt ∧
    (populateRecipeCoreFields recipe rm).1.cookTime = rm.recipeDef.cookTime ∧
    (populateRecipeCoreFields recipe rm).1.imageURL = recipe.imageURL := by
  unfold populateRecipeCoreFields
  cases hh : recipe.history with
  | none => simp [hh]
  | some h => simp [hh]

theorem populate_ok_validate (recipe : Recipe) (rm : RecipeManager)
    (h : (populateRecipeCoreFields recipe rm).2 = .ok ()) :
    validateRecipeCoreFields (populateRecipeCoreFields recipe rm).1 = .ok () := by
  unfold populateRecipeCoreFields at h ⊢
  cases hh : recipe.history with
  | none =>
    simp [hh] at h
  | some hs =>
    simp only [hh] at h ⊢
    exact h

theorem validate_ok_fields (r : Recipe) (h : validateRecipeCoreFields r = .ok ()) :
    r.title ≠ "" ∧ r.ingredients ≠ none ∧ r.instructions ≠ none ∧
    r.imagePrompt ≠ "" := by
  unfold validateRecipeCoreFields at h
  split at h
  · exact absurd h (by simp)
  · rename_i hc
    push_neg at hc
    exact ⟨hc.1, hc.2.1, hc.2.2.1, hc.2.2.2.1⟩

theorem appendHistoryEntry_shape (h : Option RecipeHistory) (e : RecipeHistoryEntry) :
    ∃ es, appendHistoryEntry h e = some ⟨some es⟩ ∧ 1 ≤ es.length := by
  cases h with
  | none => exact ⟨[e], rfl, by simp⟩
  | some hh =>
    obtain ⟨ent⟩ := hh
    cases ent with
    | none => exact ⟨[e], rfl, by simp⟩
    | some es => exact ⟨es ++ [e], rfl, by simp⟩

theorem textStage_some_store (env : RunEnv) (recipe : Recipe) (store : DraftStore)
    (e : String) (h : (textStage env recipe store).1 = some e) :
    (textStage env recipe store).2.1 = store := by
  unfold textStage at h ⊢
  cases hg : env.genTextResult with
  | error x => simp [hg]
  | ok u =>
    cases u
    simp only [hg] at h ⊢
    cases hp : (populateRecipeCoreFields recipe env.rm).2 with
    | error x => simp [hp]
    | ok u =>
      cases u
      simp only [hp] at h ⊢
      cases hu : env.updateDefResult with
      | error x => simp [hu]
      | ok u =>
        cases u
        simp only [hu] at h ⊢
        cases hpa : (AssociateTagsWithRecipe env.assocUpdateOk
            (UpdateRecipeDef store (populateRecipeCoreFields recipe env.rm).1
              env.rm.nextRecipeHistoryEntry) env.rm.recipeDef.hashtags).2 with
        | error x => simp [hpa] at h
        | ok u => simp [hpa] at h

theorem textStage_none_store (env : RunEnv) (recipe : Recipe) (store : DraftStore)
    (h : (textStage env recipe store).1 = none) :
    (textStage env recipe store).2.1 =
      (AssociateTagsWithRecipe env.assocUpdateOk
        (UpdateRecipeDef store (populateRecipeCoreFields recipe env.rm).1
          env.rm.nextRecipeHistoryEntry) env.rm.recipeDef.hashtags).1 ∧
    env.genTextResult = .ok () ∧
    (populateRecipeCoreFields recipe env.rm).2 = .ok () ∧
    env.updateDefResult = .ok () := by
  unfold textStage at h ⊢
  cases hg : env.genTextResult with
  | error x => simp [hg] at h
  | ok u =>
    cases u
    simp only [hg] at h ⊢
    cases hp : (populateRecipeCoreFields recipe env.rm).2 with
    | error x => simp [hp] at h
    | ok u =>
      cases u
      simp only [hp] at h ⊢
      cases hu : env.updateDefResult with
      | error x => simp [hu] at h
      | ok u =>
        cases u
        simp only [hu] at h ⊢
        cases hpa : (AssociateTagsWithRecipe env.assocUpdateOk
            (UpdateRecipeDef store (populateRecipeCoreFields recipe env.rm).1
              env.rm.nextRecipeHistoryEntry) env.rm.recipeDef.hashtags).2 with
        | error x => simp [hpa]
        | ok u => simp [hpa]

theorem UpdateRecipeDef_recipe (store : DraftStore) (r : Recipe)
    (e : RecipeHistoryEntry) :
    (UpdateRecipeDef store r e).recipe =
      some { r with history := appendHistoryEntry r.history e } := rfl

theorem textStage_none_recipe (env : RunEnv) (recipe : Recipe) (store : DraftStore)
    (h : (textStage env recipe store).1 = none) :
    (textStage env recipe store).2.1.recipe =
      some { (populateRecipeCoreFields recipe env.rm).1 with
        history := appendHistoryEntry
          (populateRecipeCoreFields recipe env.rm).1.history
          env.rm.nextRecipeHistoryEntry } := by
  obtain ⟨hs, _, _, _⟩ := textStage_none_store env recipe store h
  rw [hs, AssociateTags_recipe, UpdateRecipeDef_recipe]

theorem storeAtProgress_recipe (env : RunEnv) (recipe : Recipe)
    (store : DraftStore) (k : Nat) :
    (storeAtProgress env recipe store k).recipe = store.recipe ∨
    (storeAtProgress env recipe store k).recipe =
      some { (populateRecipeCoreFields recipe env.rm).1 with
        history := appendHistoryEntry
          (populateRecipeCoreFields recipe env.rm).1.history
          env.rm.nextRecipeHistoryEntry } := by
  unfold storeAtProgress textStageStores
  cases hg : env.genTextResult with
  | error x =>
    left
    simp
  | ok u =>
    cases u
    simp only []
    cases hp : (populateRecipeCoreFields recipe env.rm).2 with
    | error x =>
      left
      simp
    | ok u =>
      cases u
      simp only []
      cases hu : env.updateDefResult with
      | error x =>
        left
        simp
      | ok u =>
        cases u
        simp only []
        rcases k with _ | _ | n
        · left
          simp
        · right
          simp [UpdateRecipeDef_recipe]
        · right
          simp only [List.length_cons, List.length_nil]
          norm_num
          simp [AssociateTags_recipe, UpdateRecipeDef_recipe]

theorem final_recipe_shape (env : RunEnv) (recipe : Recipe) (store : DraftStore) :
    (FinishGenerateRecipeWithChat env recipe store).store.recipe = none ∨
    (FinishGenerateRecipeWithChat env recipe store).store.recipe = store.recipe ∨
    ∃ r es, (FinishGenerateRecipeWithChat env recipe store).store.recipe = some r ∧
      r.history = some ⟨some es⟩ ∧ 1 ≤ es.length := by
  have hshape := appendHistoryEntry_shape
    (populateRecipeCoreFields recipe env.rm).1.history env.rm.nextRecipeHistoryEntry
  obtain ⟨es0, hes0, hlen0⟩ := hshape
  unfold FinishGenerateRecipeWithChat
  cases htd : env.textDeadline with
  | true =>
    simp only [if_pos]
    cases hdr : env.deleteRepoResult with
    | ok u =>
      cases u
      cases hds : env.deleteS3Result with
      | ok v =>
        cases v
        left
        simp [DeleteRecipe, hdr, hds]
      | error c =>
        left
        simp [DeleteRecipe, hdr, hds]
    | error c =>
      rcases storeAtProgress_recipe env recipe store env.textProgress with hsp | hsp
      · right
        left
        simp [DeleteRecipe, hdr, hsp]
      · right
        right
        refine ⟨{ (populateRecipeCoreFields recipe env.rm).1 with
            history := appendHistoryEntry
              (populateRecipeCoreFields recipe env.rm).1.history
              env.rm.nextRecipeHistoryEntry }, es0, ?_, hes0, hlen0⟩
        simp [DeleteRecipe, hdr, hsp]
  | false =>
    simp only [Bool.false_eq_true, if_neg, not_false_eq_true]
    cases ht : (textStage env recipe store).1 with
    | some e =>
      cases hdr : env.deleteRepoResult with
      | ok u =>
        cases u
        cases hds : env.deleteS3Result with
        | ok v =>
          cases v
          left
          simp [DeleteRecipe, hdr, hds]
        | error c =>
          left
          simp [DeleteRecipe, hdr, hds]
      | error c =>
        right
        left
        simp [DeleteRecipe, hdr, textStage_some_store env recipe store e ht]
    | none =>
      have hrec := textStage_none_recipe env recipe store ht
      cases hid : env.imageDeadline with
      | true =>
        right
        right
        exact ⟨_, es0, hrec, hes0, hlen0⟩
      | false =>
        cases hgi : env.genImageResult with
        | error x =>
          right
          right
          exact ⟨_, es0, hrec, hes0, hlen0⟩
        | ok u =>
          cases u
          cases hup : env.uploadResult with
          | error c =>
            right
            right
            exact ⟨_, es0, hrec, hes0, hlen0⟩
          | ok url =>
            cases hui : env.updateImageURLResult with
            | error x =>
              right
              right
              exact ⟨_, es0, hrec, hes0, hlen0⟩
            | ok u =>
              cases u
              right
              right
              refine ⟨{ (populateRecipeCoreFields recipe env.rm).1 with
                  history := appendHistoryEntry
                    (populateRecipeCoreFields recipe env.rm).1.history
                    env.rm.nextRecipeHistoryEntry,
                  imageURL := url }, es0, ?_, hes0, hlen0⟩
              simp [UpdateRecipeImageURL, hrec]

/-- C1: when the text stage reports an error, or the shared deadline
expires before the text-stage signal is received (at whatever persistence
progress the goroutine had reached), the recipe row is deleted from the
store; a deletion failure is only logged, the run terminating normally
with no further writes. -/
theorem claim_C1 :
    (∀ (env : RunEnv) (recipe : Recipe) (store : DraftStore) (e : String),
      env.textDeadline = false →
      (textStage env recipe store).1 = some e →
      env.deleteRepoResult = .ok () →
      (FinishGenerateRecipeWithChat env recipe store).store.recipe = none) ∧
    (∀ (env : RunEnv) (recipe : Recipe) (store : DraftStore),
      env.textDeadline = true →
      env.deleteRepoResult = .ok () →
      (FinishGenerateRecipeWithChat env recipe store).store.recipe = none) ∧
    (∀ (env : RunEnv) (recipe : Recipe) (store : DraftStore) (cause : String),
      env.textDeadline = true →
      env.deleteRepoResult = .error cause →
      (FinishGenerateRecipeWithChat env recipe store).store =
        storeAtProgress env recipe store env.textProgress ∧
      ((r"failed to delete recipe: ") ++ cause) ∈
        (FinishGenerateRecipeWithChat env recipe store).logs) ∧
    (∀ (env : RunEnv) (recipe : Recipe) (store : DraftStore) (e cause : String),
      env.textDeadline = false →
      (textStage env recipe store).1 = some e →
      env.deleteRepoResult = .error cause →
      (FinishGenerateRecipeWithChat env recipe store).store =
        (textStage env recipe store).2.1 ∧
      ((r"failed to delete recipe: ") ++ cause) ∈
        (FinishGenerateRecipeWithChat env recipe store).logs) := by
  refine ⟨?_, ?_, ?_, ?_⟩
  · intro env recipe store e htd hsig hdel
    cases hs3 : env.deleteS3Result with
    | ok u =>
      cases u
      simp [FinishGenerateRecipeWithChat, htd, hsig, DeleteRecipe, hdel, hs3]
    | error c =>
      simp [FinishGenerateRecipeWithChat, htd, hsig, DeleteRecipe, hdel, hs3]
  · intro env recipe store htd hdel
    cases hs3 : env.deleteS3Result with
    | ok u =>
      cases u
      simp [FinishGenerateRecipeWithChat, htd, DeleteRecipe, hdel, hs3]
    | error c =>
      simp [FinishGenerateRecipeWithChat, htd, DeleteRecipe, hdel, hs3]
  · intro env recipe store cause htd hdel
    constructor
    · simp [FinishGenerateRecipeWithChat, htd, DeleteRecipe, hdel]
    · simp [FinishGenerateRecipeWithChat, htd, DeleteRecipe, hdel]
  · intro env recipe store e cause htd hsig hdel
    constructor
    · simp [FinishGenerateRecipeWithChat, htd, hsig, DeleteRecipe, hdel,
        textStage_some_store env recipe store e hsig]
    · simp [FinishGenerateRecipeWithChat, htd, hsig, DeleteRecipe, hdel]

theorem claim_C1_witness :
    (FinishGenerateRecipeWithChat
      ⟨.ok (), ⟨⟨r"Pasta", some [], some [], 15, [], r"a dish", []⟩,
        [⟨r"p", r"r"⟩], ⟨r"p", r"r"⟩⟩, .ok (), true, .ok (), .ok (r"u"), .ok (),
        .ok (), .ok (), true, 0, false⟩
      ⟨1, r"", none, none, 0, [], r"", r"", some ⟨some []⟩⟩
      ⟨some ⟨1, r"", none, none, 0, [], r"", r"", some ⟨some []⟩⟩, [], 1, []⟩).store.recipe
      = none :=
  claim_C1.2.1
    ⟨.ok (), ⟨⟨r"Pasta", some [], some [], 15, [], r"a dish", []⟩,
      [⟨r"p", r"r"⟩], ⟨r"p", r"r"⟩⟩, .ok (), true, .ok (), .ok (r"u"), .ok (),
      .ok (), .ok (), true, 0, false⟩
    ⟨1, r"", none, none, 0, [], r"", r"", some ⟨some []⟩⟩
    ⟨some ⟨1, r"", none, none, 0, [], r"", r"", some ⟨some []⟩⟩, [], 1, []⟩
    rfl rfl

/-- C2: when the text stage succeeds and the image stage then fails or
the deadline expires during the image wait, the run performs no further
writes: the final store is exactly the store at text completion, whose
recipe row carries the generated text fields, a non-empty history, and
the draft's untouched null image URL. -/
theorem claim_C2 :
    ∀ (env : RunEnv) (recipe : Recipe) (store : DraftStore),
      env.textDeadline = false →
      (textStage env recipe store).1 = none →
      (env.imageDeadline = true ∨ ∃ e, env.genImageResult = .error e) →
      (FinishGenerateRecipeWithChat env recipe store).store =
        (textStage env recipe store).2.1 ∧
      ∃ r, (textStage env recipe store).2.1.recipe = some r ∧
        r.title = env.rm.recipeDef.title ∧ r.title ≠ "" ∧
        r.ingredients = env.rm.recipeDef.ingredients ∧ r.ingredients ≠ none ∧
        r.instructions = env.rm.recipeDef.instructions ∧ r.instructions ≠ none ∧
        r.imagePrompt = env.rm.recipeDef.imagePrompt ∧ r.imagePrompt ≠ "" ∧
        r.cookTime = env.rm.recipeDef.cookTime ∧
        r.imageURL = recipe.imageURL ∧
        (∃ es, r.history = some ⟨some es⟩ ∧ 1 ≤ es.length) := by
  intro env recipe store htd hsig himg
  obtain ⟨hs, hg, hp, hu⟩ := textStage_none_store env recipe store hsig
  have hrec := textStage_none_recipe env recipe store hsig
  obtain ⟨hf1, hf2, hf3, hf4, hf5, hf6⟩ := populate_fields recipe env.rm
  obtain ⟨hv1, hv2, hv3, hv4⟩ :=
    validate_ok_fields _ (populate_ok_validate recipe env.rm hp)
  obtain ⟨es0, hes0, hlen0⟩ := appendHistoryEntry_shape
    (populateRecipeCoreFields recipe env.rm).1.history env.rm.nextRecipeHistoryEntry
  constructor
  · rcases himg with hid | ⟨e, hgi⟩
    · simp [FinishGenerateRecipeWithChat, htd, hsig, hid]
    · cases hid : env.imageDeadline with
      | true => simp [FinishGenerateRecipeWithChat, htd, hsig, hid]
      | false => simp [FinishGenerateRecipeWithChat, htd, hsig, hid, hgi]
  · refine ⟨{ (populateRecipeCoreFields recipe env.rm).1 with
        history := appendHistoryEntry
          (populateRecipeCoreFields recipe env.rm).1.history
          env.rm.nextRecipeHistoryEntry }, hrec, ?_⟩
    exact ⟨hf1, hv1, hf2, hv2, hf3, hv3, hf4, hv4, hf5, hf6, es0, hes0, hlen0⟩

theorem claim_C2_witness :
    (FinishGenerateRecipeWithChat
      ⟨.ok (), ⟨⟨r"Pasta", some [], some [r"cook"], 15, [], r"a dish", []⟩,
        [⟨r"p", r"r"⟩], ⟨r"p", r"r"⟩⟩, .ok (), true, .error (r"image api down"),
        .ok (r"u"), .ok (), .ok (), .ok (), false, 0, false⟩
      ⟨1, r"", none, none, 0, [], r"", r"", some ⟨some []⟩⟩
      ⟨some ⟨1, r"", none, none, 0, [], r"", r"", some ⟨some []⟩⟩, [], 1, []⟩).store =
      (textStage
        ⟨.ok (), ⟨⟨r"Pasta", some [], some [r"cook"], 15, [], r"a dish", []⟩,
          [⟨r"p", r"r"⟩], ⟨r"p", r"r"⟩⟩, .ok (), true, .error (r"image api down"),
          .ok (r"u"), .ok (), .ok (), .ok (), false, 0, false⟩
        ⟨1, r"", none, none, 0, [], r"", r"", some ⟨some []⟩⟩
        ⟨some ⟨1, r"", none, none, 0, [], r"", r"", some ⟨some []⟩⟩, [], 1, []⟩).2.1 :=
  (claim_C2
    ⟨.ok (), ⟨⟨r"Pasta", some [], some [r"cook"], 15, [], r"a dish", []⟩,
      [⟨r"p", r"r"⟩], ⟨r"p", r"r"⟩⟩, .ok (), true, .error (r"image api down"),
      .ok (r"u"), .ok (), .ok (), .ok (), false, 0, false⟩
    ⟨1, r"", none, none, 0, [], r"", r"", some ⟨some []⟩⟩
    ⟨some ⟨1, r"", none, none, 0, [], r"", r"", some ⟨some []⟩⟩, [], 1, []⟩
    rfl rfl (Or.inr ⟨r"image api down", rfl⟩)).1

/-- C9: a tag-association failure inside the text stage is only logged:
the goroutine still sends the success signal, the run is not rolled back,
and the image stage proceeds to persist its URL. -/
theorem claim_C9 :
    ∀ (env : RunEnv) (recipe : Recipe) (store : DraftStore) (url : String),
      env.genTextResult = .ok () →
      (populateRecipeCoreFields recipe env.rm).2 = .ok () →
      env.updateDefResult = .ok () →
      env.assocUpdateOk = false →
      env.textDeadline = false →
      env.imageDeadline = false →
      env.genImageResult = .ok () →
      env.uploadResult = .ok url →
      env.updateImageURLResult = .ok () →
      (textStage env recipe store).1 = none ∧
      (r"failed to update recipe with tags") ∈ (textStage env recipe store).2.2 ∧
      ∃ r, (FinishGenerateRecipeWithChat env recipe store).store.recipe = some r ∧
        r.imageURL = url := by
  intro env recipe store url hg hp hu ha htd hid hgi hup hui
  have hsig : (textStage env recipe store).1 = none := by
    simp [textStage, hg, hp, hu, ha, AssociateTagsWithRecipe]
  have hlog : (r"failed to update recipe with tags") ∈
      (textStage env recipe store).2.2 := by
    simp [textStage, hg, hp, hu, ha, AssociateTagsWithRecipe]
  have hrec := textStage_none_recipe env recipe store hsig
  refine ⟨hsig, hlog, ?_⟩
  have hfin : (FinishGenerateRecipeWithChat env recipe store).store =
      UpdateRecipeImageURL (textStage env recipe store).2.1 url := by
    simp [FinishGenerateRecipeWithChat, htd, hsig, hid, hgi, hup, hui]
  rw [hfin]
  refine ⟨{ (populateRecipeCoreFields recipe env.rm).1 with
      history := appendHistoryEntry
        (populateRecipeCoreFields recipe env.rm).1.history
        env.rm.nextRecipeHistoryEntry,
      imageURL := url }, ?_, rfl⟩
  simp [UpdateRecipeImageURL, hrec]

theorem claim_C9_witness :
    (textStage
      ⟨.ok (), ⟨⟨r"Pasta", some [], some [r"cook"], 15, [], r"a dish",
        [r"#Spicy Chicken"]⟩, [⟨r"p", r"r"⟩], ⟨r"p", r"r"⟩⟩, .ok (), false,
        .ok (), .ok (r"u"), .ok (), .ok (), .ok (), false, 0, false⟩
      ⟨1, r"", none, none, 0, [], r"", r"", some ⟨some []⟩⟩
      ⟨some ⟨1, r"", none, none, 0, [], r"", r"", some ⟨some []⟩⟩, [], 1, []⟩).1
      = none ∧
    ∃ r, (FinishGenerateRecipeWithChat
      ⟨.ok (), ⟨⟨r"Pasta", some [], some [r"cook"], 15, [], r"a dish",
        [r"#Spicy Chicken"]⟩, [⟨r"p", r"r"⟩], ⟨r"p", r"r"⟩⟩, .ok (), false,
        .ok (), .ok (r"u"), .ok (), .ok (), .ok (), false, 0, false⟩
      ⟨1, r"", none, none, 0, [], r"", r"", some ⟨some []⟩⟩
      ⟨some ⟨1, r"", none, none, 0, [], r"", r"", some ⟨some []⟩⟩, [], 1, []⟩).store.recipe
        = some r ∧ r.imageURL = (r"u") := by
  have h := claim_C9
    ⟨.ok (), ⟨⟨r"Pasta", some [], some [r"cook"], 15, [], r"a dish",
      [r"#Spicy Chicken"]⟩, [⟨r"p", r"r"⟩], ⟨r"p", r"r"⟩⟩, .ok (), false,
      .ok (), .ok (r"u"), .ok (), .ok (), .ok (), false, 0, false⟩
    ⟨1, r"", none, none, 0, [], r"", r"", some ⟨some []⟩⟩
    ⟨some ⟨1, r"", none, none, 0, [], r"", r"", some ⟨some []⟩⟩, [], 1, []⟩
    (r"u") rfl rfl rfl rfl rfl rfl rfl rfl rfl
  exact ⟨h.1, h.2.2⟩

/-- C4: after any run on a store whose recipe row, if present, is an
untitled draft, a recipe row with a non-empty title always carries at
least one history entry; and within the text stage the populated, valid
row with its appended history entry is persisted strictly before the
success signal exists. -/
theorem claim_C4 :
    (∀ (env : RunEnv) (recipe : Recipe) (store : DraftStore),
      (∀ r0, store.recipe = some r0 → r0.title = "") →
      ∀ r, (FinishGenerateRecipeWithChat env recipe store).store.recipe = some r →
        r.title ≠ "" →
        ∃ es, r.history = some ⟨some es⟩ ∧ 1 ≤ es.length) ∧
    (∀ (env : RunEnv) (recipe : Recipe) (store : DraftStore),
      (textStage env recipe store).1 = none →
      ∃ r, (textStage env recipe store).2.1.recipe = some r ∧
        r.title ≠ "" ∧ ∃ es, r.history = some ⟨some es⟩ ∧ 1 ≤ es.length) := by
  constructor
  · intro env recipe store h0 r hr ht
    rcases final_recipe_shape env recipe store with hn | hs | ⟨r2, es, hr2, hh, hl⟩
    · rw [hn] at hr
      exact absurd hr (by simp)
    · rw [hs] at hr
      exact absurd (h0 r hr) ht
    · rw [hr2] at hr
      injection hr with he
      subst he
      exact ⟨es, hh, hl⟩
  · intro env recipe store hsig
    obtain ⟨hs, hg, hp, hu⟩ := textStage_none_store env recipe store hsig
    have hrec := textStage_none_recipe env recipe store hsig
    obtain ⟨hf1, _, _, _, _, _⟩ := populate_fields recipe env.rm
    obtain ⟨hv1, _, _, _⟩ :=
      validate_ok_fields _ (populate_ok_validate recipe env.rm hp)
    obtain ⟨es0, hes0, hlen0⟩ := appendHistoryEntry_shape
      (populateRecipeCoreFields recipe env.rm).1.history env.rm.nextRecipeHistoryEntry
    exact ⟨{ (populateRecipeCoreFields recipe env.rm).1 with
        history := appendHistoryEntry
          (populateRecipeCoreFields recipe env.rm).1.history
          env.rm.nextRecipeHistoryEntry }, hrec, hv1, es0, hes0, hlen0⟩

theorem claim_C4_witness :
    ∃ r, (textStage
      ⟨.ok (), ⟨⟨r"Pasta", some [], some [r"cook"], 15, [], r"a dish", []⟩,
        [⟨r"p", r"r"⟩], ⟨r"p", r"r"⟩⟩, .ok (), true, .ok (), .ok (r"u"), .ok (),
        .ok (), .ok (), false, 0, false⟩
      ⟨1, r"", none, none, 0, [], r"", r"", some ⟨some []⟩⟩
      ⟨some ⟨1, r"", none, none, 0, [], r"", r"", some ⟨some []⟩⟩, [], 1, []⟩).2.1.recipe
      = some r ∧ r.title ≠ "" ∧ ∃ es, r.history = some ⟨some es⟩ ∧ 1 ≤ es.length :=
  claim_C4.2
    ⟨.ok (), ⟨⟨r"Pasta", some [], some [r"cook"], 15, [], r"a dish", []⟩,
      [⟨r"p", r"r"⟩], ⟨r"p", r"r"⟩⟩, .ok (), true, .ok (), .ok (r"u"), .ok (),
      .ok (), .ok (), false, 0, false⟩
    ⟨1, r"", none, none, 0, [], r"", r"", some ⟨some []⟩⟩
    ⟨some ⟨1, r"", none, none, 0, [], r"", r"", some ⟨some []⟩⟩, [], 1, []⟩
    rfl

theorem textStage_flags (env : RunEnv) (a b : Bool) (recipe : Recipe)
    (store : DraftStore) :
    textStage { env with textDeadline := a, imageDeadline := b } recipe store =
      textStage env recipe store := rfl

theorem finish_success (env : RunEnv) (recipe : Recipe) (store : DraftStore)
    (url : String)
    (htd : env.textDeadline = false) (hid : env.imageDeadline = false)
    (hsig : (textStage env recipe store).1 = none)
    (hgi : env.genImageResult = .ok ()) (hup : env.uploadResult = .ok url)
    (hui : env.updateImageURLResult = .ok ()) :
    (FinishGenerateRecipeWithChat env recipe store).store =
      UpdateRecipeImageURL (textStage env recipe store).2.1 url := by
  simp [FinishGenerateRecipeWithChat, htd, hsig, hid, hgi, hup, hui]

theorem finish_imageTimeout (env : RunEnv) (recipe : Recipe) (store : DraftStore)
    (htd : env.textDeadline = false) (hid : env.imageDeadline = true)
    (hsig : (textStage env recipe store).1 = none) :
    (FinishGenerateRecipeWithChat env recipe store).store =
      (textStage env recipe store).2.1 ∧
    msgImageTimeout ∈ (FinishGenerateRecipeWithChat env recipe store).logs := by
  constructor
  · simp [FinishGenerateRecipeWithChat, htd, hsig, hid]
  · simp [FinishGenerateRecipeWithChat, htd, hsig, hid]

/-- C7: one 5-minute deadline is armed at entry and governs both waits:
the text wait rolls back exactly when the text signal is ready only after
the shared deadline, and, the text signal having arrived at time tt
within the deadline, the image wait times out exactly when the image
signal is ready more than the remaining generationTimeout minus tt
seconds later, not on any fresh per-stage budget. -/
theorem claim_C7 :
    (∀ (env : RunEnv) (tt ti : Nat) (recipe : Recipe) (store : DraftStore),
      generationTimeout < tt →
      env.deleteRepoResult = .ok () →
      (FinishWithClock env tt ti recipe store).store.recipe = none) ∧
    (∀ (env : RunEnv) (tt d : Nat) (recipe : Recipe) (store : DraftStore)
       (url : String),
      tt ≤ generationTimeout →
      (textStage env recipe store).1 = none →
      env.genImageResult = .ok () →
      env.uploadResult = .ok url →
      env.updateImageURLResult = .ok () →
      (generationTimeout - tt < d →
        (FinishWithClock env tt (tt + d) recipe store).store =
          (textStage env recipe store).2.1 ∧
        msgImageTimeout ∈ (FinishWithClock env tt (tt + d) recipe store).logs) ∧
      (d ≤ generationTimeout - tt →
        (FinishWithClock env tt (tt + d) recipe store).store =
          UpdateRecipeImageURL (textStage env recipe store).2.1 url)) := by
  constructor
  · intro env tt ti recipe store htt hdel
    have htd : decide (generationTimeout < tt) = true := decide_eq_true htt
    cases hs3 : env.deleteS3Result with
    | ok u =>
      cases u
      simp [FinishWithClock, FinishGenerateRecipeWithChat, htd, DeleteRecipe,
        hdel, hs3]
    | error c =>
      simp [FinishWithClock, FinishGenerateRecipeWithChat, htd, DeleteRecipe,
        hdel, hs3]
  · intro env tt d recipe store url htt hsig hgi hup hui
    have h1 : decide (generationTimeout < tt) = false :=
      decide_eq_false (by omega)
    constructor
    · intro hd
      have h2 : decide (generationTimeout < tt + d) = true :=
        decide_eq_true (by omega)
      have hfin := finish_imageTimeout
        { env with textDeadline := decide (generationTimeout < tt),
                   imageDeadline := decide (generationTimeout < (tt + d)) }
        recipe store h1 h2 (by rw [textStage_flags]; exact hsig)
      rw [textStage_flags] at hfin
      exact hfin
    · intro hd
      have h2 : decide (generationTimeout < tt + d) = false :=
        decide_eq_false (by omega)
      have hfin := finish_success
        { env with textDeadline := decide (generationTimeout < tt),
                   imageDeadline := decide (generationTimeout < (tt + d)) }
        recipe store url h1 h2 (by rw [textStage_flags]; exact hsig) hgi hup hui
      rw [textStage_flags] at hfin
      exact hfin

theorem claim_C7_witness :
    (FinishWithClock
      ⟨.ok (), ⟨⟨r"Pasta", some [], some [r"cook"], 15, [], r"a dish", []⟩,
        [⟨r"p", r"r"⟩], ⟨r"p", r"r"⟩⟩, .ok (), true, .ok (), .ok (r"u"), .ok (),
        .ok (), .ok (), false, 0, false⟩ 301 10
      ⟨1, r"", none, none, 0, [], r"", r"", some ⟨some []⟩⟩
      ⟨some ⟨1, r"", none, none, 0, [], r"", r"", some ⟨some []⟩⟩, [], 1, []⟩).store.recipe
      = none ∧
    msgImageTimeout ∈ (FinishWithClock
      ⟨.ok (), ⟨⟨r"Pasta", some [], some [r"cook"], 15, [], r"a dish", []⟩,
        [⟨r"p", r"r"⟩], ⟨r"p", r"r"⟩⟩, .ok (), true, .ok (), .ok (r"u"), .ok (),
        .ok (), .ok (), false, 0, false⟩ 200 (200 + 150)
      ⟨1, r"", none, none, 0, [], r"", r"", some ⟨some []⟩⟩
      ⟨some ⟨1, r"", none, none, 0, [], r"", r"", some ⟨some []⟩⟩, [], 1, []⟩).logs := by
  constructor
  · exact claim_C7.1
      ⟨.ok (), ⟨⟨r"Pasta", some [], some [r"cook"], 15, [], r"a dish", []⟩,
        [⟨r"p", r"r"⟩], ⟨r"p", r"r"⟩⟩, .ok (), true, .ok (), .ok (r"u"), .ok (),
        .ok (), .ok (), false, 0, false⟩ 301 10
      ⟨1, r"", none, none, 0, [], r"", r"", some ⟨some []⟩⟩
      ⟨some ⟨1, r"", none, none, 0, [], r"", r"", some ⟨some []⟩⟩, [], 1, []⟩
      (by decide) rfl
  · exact ((claim_C7.2
      ⟨.ok (), ⟨⟨r"Pasta", some [], some [r"cook"], 15, [], r"a dish", []⟩,
        [⟨r"p", r"r"⟩], ⟨r"p", r"r"⟩⟩, .ok (), true, .ok (), .ok (r"u"), .ok (),
        .ok (), .ok (), false, 0, false⟩ 200 150
      ⟨1, r"", none, none, 0, [], r"", r"", some ⟨some []⟩⟩
      ⟨some ⟨1, r"", none, none, 0, [], r"", r"", some ⟨some []⟩⟩, [], 1, []⟩
      (r"u") (by decide) rfl rfl rfl rfl).1 (by decide)).2

end SaltyBytes
